import Mathlib

/-!
Verification of the eatersim package, an emulator of Ben Eater's 8-bit
breadboard CPU, against its specification.

Every board of the emulator (clock, registers, ALU, program counter, memory,
control logic, and the composed CPU) is translated from `eatersim.go` into a
pure Lean function on an explicit state record.  Go `byte` values are
represented as `Nat`, with `% 256` (resp. `% 16`, matching `& 0x0f`) inserted
exactly where the Go code wraps or masks.  Pointer-valued signals are passed
as the values they would be dereferenced to at the call site, following the
wiring established in `NewBBCpu`; a nil signal pointer reads as `false`
(Go helper `ptbool`), so the boards wired with a nil pointer receive the
constant `false` below.
-/

/-- Go byte addition, wrapping modulo 256. -/
def byteAdd (a b : Nat) : Nat := (a + b) % 256

/-- Go byte subtraction, wrapping modulo 256. -/
def byteSub (a b : Nat) : Nat := (a + (256 - b % 256)) % 256

/-- State of the clock board `Clk`: the current clock level `CLK`. -/
structure Clk where
  CLK : Bool
deriving DecidableEq

/-- Translation of `Clk.Exec`: toggle the level unless the halt signal is
asserted, in which case the level is forced low. -/
def Clk.exec (hlt : Bool) (c : Clk) : Clk :=
  if !hlt then { CLK := !c.CLK } else { CLK := false }

/-- State of the generic 8-bit register board `Reg`: the buffer plus the
previous-clock-level and rising-edge helper bits. -/
structure Reg where
  BUF : Nat
  clkprev : Bool
  clkre : Bool
deriving DecidableEq

/-- Translation of `Reg.Exec`.  Arguments are the dereferenced signal values
at call time; the result pairs the new register state with the (possibly
rewritten) bus value. -/
def Reg.exec (bus : Nat) (clk clr ei eo : Bool) (r : Reg) : Reg × Nat :=
  let clkre := clk && !r.clkprev
  let buf1 := if ei && clkre then bus else r.BUF
  let buf2 := if clr then 0 else buf1
  ({ BUF := buf2, clkprev := clk, clkre := clkre },
    if eo then buf2 else bus)

/-- State of the instruction register board `Ireg`. -/
structure Ireg where
  BUF : Nat
  clkprev : Bool
  clkre : Bool
deriving DecidableEq

/-- Translation of `Ireg.Exec`: as `Reg.Exec` but only the low 4 bits
(`BUF & 0x0f`) are driven onto the bus. -/
def Ireg.exec (bus : Nat) (clk clr ei eo : Bool) (r : Ireg) : Ireg × Nat :=
  let clkre := clk && !r.clkprev
  let buf1 := if ei && clkre then bus else r.BUF
  let buf2 := if clr then 0 else buf1
  ({ BUF := buf2, clkprev := clk, clkre := clkre },
    if eo then buf2 % 16 else bus)

/-- State of the 4-bit memory address register board `Reg4`. -/
structure Reg4 where
  BUF : Nat
  clkprev : Bool
  clkre : Bool
deriving DecidableEq

/-- Translation of `Reg4.Exec`: captures only the low 4 bits of the bus and
never drives the bus. -/
def Reg4.exec (bus : Nat) (clk clr ei : Bool) (r : Reg4) : Reg4 :=
  let clkre := clk && !r.clkprev
  let buf1 := if ei && clkre then bus % 16 else r.BUF
  let buf2 := if clr then 0 else buf1
  { BUF := buf2, clkprev := clk, clkre := clkre }

/-- State of the memory board `Mem`: the 16-cell store plus edge-detection
bits.  The store is a list of byte values of length 16. -/
structure Mem where
  MEM : List Nat
  clkprev : Bool
  clkre : Bool
deriving DecidableEq

/-- Translation of `Mem.Exec`: on a rising edge with ram-input asserted the
bus value is stored at the addressed cell (`Addr & 0x0f`); with ram-output
asserted, the addressed cell drives the bus. -/
def Mem.exec (addr bus : Nat) (clk ri ro : Bool) (m : Mem) : Mem × Nat :=
  let clkre := clk && !m.clkprev
  let mem1 := if ri && clkre then m.MEM.set (addr % 16) bus else m.MEM
  ({ MEM := mem1, clkprev := clk, clkre := clkre },
    if ro then mem1.getD (addr % 16) 0 else bus)

/-- Translation of `Mem.Write` (the bulk-load operation): overwrite the store
from the start with at most 16 bytes of `p`, returning the new state, the
count of bytes written, and whether the input was truncated (the Go code
returns a non-nil error exactly in that case). -/
def Mem.write (p : List Nat) (m : Mem) : Mem × Nat × Bool :=
  let n := if 16 < p.length then 16 else p.length
  ({ m with MEM := p.take n ++ m.MEM.drop n }, n, decide (16 < p.length))

/-- Combinational ALU result of `Alu.Exec`: sum unless subtract is selected. -/
def aluResult (su : Bool) (a b : Nat) : Nat :=
  if !su then byteAdd a b else byteSub a b

/-- Pending carry computed in `Alu.Exec`: overflow test `0xff < A + B` when
adding, borrow test `A < B` when subtracting. -/
def aluPendCF (su : Bool) (a b : Nat) : Bool :=
  if !su then decide (255 < a + b) else decide (a < b)

/-- Pending zero computed in `Alu.Exec`: whether the freshly computed result
is zero. -/
def aluPendZF (su : Bool) (a b : Nat) : Bool :=
  decide (aluResult su a b = 0)

/-- State of the ALU board `Alu`: buffer, committed flags `CF`/`ZF`,
edge-detection bits, and the pending flag pair `bufCF`/`bufZF`. -/
structure Alu where
  BUF : Nat
  CF : Bool
  ZF : Bool
  clkprev : Bool
  clkre : Bool
  bufCF : Bool
  bufZF : Bool
deriving DecidableEq

/-- Translation of `Alu.Exec`: commit the pending flag pair on a rising edge
with flag-input asserted, clear the committed pair if clear is asserted, then
recompute the buffer and the pending pair from the current operands, and
drive the bus when enable-out is asserted. -/
def Alu.exec (areg breg bus : Nat) (clk clr eo su fi : Bool) (a : Alu) : Alu × Nat :=
  let clkre := clk && !a.clkprev
  let cf1 := if fi && clkre then a.bufCF else a.CF
  let zf1 := if fi && clkre then a.bufZF else a.ZF
  let cf2 := if clr then false else cf1
  let zf2 := if clr then false else zf1
  let buf := aluResult su areg breg
  ({ BUF := buf, CF := cf2, ZF := zf2, clkprev := clk, clkre := clkre,
     bufCF := aluPendCF su areg breg, bufZF := aluPendZF su areg breg },
    if eo then buf else bus)

/-- State of the program counter board `Ctr`: the 4-bit counter value plus
edge-detection bits. -/
structure Ctr where
  CNT : Nat
  clkprev : Bool
  clkre : Bool
deriving DecidableEq

/-- Translation of `Ctr.Exec`: on a rising edge, increment modulo 16 when
count-enable is asserted, then load the low 4 bits of the bus when the jump
signal is asserted; clear forces the counter to 0; counter-output drives the
low 4 bits onto the bus. -/
def Ctr.exec (bus : Nat) (clk clr co j ce : Bool) (c : Ctr) : Ctr × Nat :=
  let clkre := clk && !c.clkprev
  let cnt1 := if ce && clkre then (c.CNT + 1) % 16 else c.CNT
  let cnt2 := if j && clkre then bus % 16 else cnt1
  let cnt3 := if clr then 0 else cnt2
  ({ CNT := cnt3, clkprev := clk, clkre := clkre },
    if co then cnt3 % 16 else bus)

/-- The fifteen per-tick control signals of the `Ctrl` board, mirroring the
fields `AI AO BI OI MI II IO EO SU FI CO J CE RI RO` of the Go struct (the
instruction-register-output signal `IO` is named `IOut` here).  All default
to false, so a sparse literal lists exactly the signals a branch of
`Ctrl.Exec` asserts, and `{}` is the all-false vector that `resetFlags`
establishes. -/
structure Sigs where
  AI : Bool := false
  AO : Bool := false
  BI : Bool := false
  OI : Bool := false
  MI : Bool := false
  II : Bool := false
  IOut : Bool := false
  EO : Bool := false
  SU : Bool := false
  FI : Bool := false
  CO : Bool := false
  J : Bool := false
  CE : Bool := false
  RI : Bool := false
  RO : Bool := false
deriving DecidableEq

/-- Translation of the signal-derivation switch of `Ctrl.Exec` (the code after
`resetFlags` when the reset latch is clear): outer switch on the micro-step
counter, inner switch on the instruction's high nibble `nb` for steps other
than 0 and 1. -/
def ctrlSigs (cnt nb : Nat) (cf zf : Bool) : Sigs :=
  match cnt with
  | 0 => { CO := true, MI := true }
  | 1 => { RO := true, II := true, CE := true }
  | _ =>
    match nb with
    | 0x1 =>
      match cnt with
      | 2 => { IOut := true, MI := true }
      | 3 => { RO := true, AI := true }
      | _ => {}
    | 0x2 =>
      match cnt with
      | 2 => { IOut := true, MI := true }
      | 3 => { RO := true, BI := true }
      | 4 => { EO := true, AI := true, FI := true }
      | _ => {}
    | 0x3 =>
      match cnt with
      | 2 => { IOut := true, MI := true }
      | 3 => { RO := true, BI := true }
      | 4 => { EO := true, AI := true, SU := true, FI := true }
      | _ => {}
    | 0x4 =>
      match cnt with
      | 2 => { IOut := true, MI := true }
      | 3 => { AO := true, RI := true }
      | _ => {}
    | 0x5 =>
      match cnt with
      | 2 => { IOut := true, AI := true }
      | _ => {}
    | 0x6 =>
      match cnt with
      | 2 => { IOut := true, J := true }
      | _ => {}
    | 0x7 =>
      match cnt with
      | 2 => if cf then { IOut := true, J := true } else {}
      | _ => {}
    | 0x8 =>
      match cnt with
      | 2 => if zf then { IOut := true, J := true } else {}
      | _ => {}
    | 0xe =>
      match cnt with
      | 2 => { AO := true, OI := true }
      | _ => {}
    | _ => {}

/-- The only assignment to the halt latch inside the switch of `Ctrl.Exec`:
opcode high nibble 0xf at micro-step 2 sets `HLT` to true. -/
def ctrlHltSet (cnt nb : Nat) : Bool :=
  decide (nb = 0xf) && decide (cnt = 2)

/-- State of the control logic board `Ctrl`: the micro-step counter, the
reset latch `CLR` with its hold counter `clrrst`, the halt latch `HLT`, the
derived signal vector, and the falling-edge detection bits. -/
structure Ctrl where
  Cnt : Nat
  CLR : Bool
  HLT : Bool
  sig : Sigs
  clkprev : Bool
  clkfe : Bool
  clrrst : Nat
deriving DecidableEq

/-- Translation of `Ctrl.Exec`: detect a falling edge and increment the
micro-step counter (wrapping 5 to 0); clear all signals (`resetFlags`); if
the reset latch is asserted, force the counter to 0 and the halt latch off,
run down the reset hold counter (self-clearing the latch when it reaches 1),
and skip derivation; otherwise derive the signals and the halt latch from
the micro-step and the instruction's high nibble. -/
def Ctrl.exec (inst : Nat) (clk cf zf : Bool) (c : Ctrl) : Ctrl :=
  let clkfe := !clk && c.clkprev
  let cnt0 := if clkfe then c.Cnt + 1 else c.Cnt
  let cnt1 := if cnt0 = 5 then 0 else cnt0
  if c.CLR then
    { Cnt := 0
      CLR := if c.clrrst = 1 then false else c.CLR
      HLT := false
      sig := {}
      clkprev := clk
      clkfe := clkfe
      clrrst := if c.clrrst = 1 then 0 else if 0 < c.clrrst then c.clrrst - 1 else c.clrrst }
  else
    { Cnt := cnt1
      CLR := c.CLR
      HLT := if ctrlHltSet cnt1 (inst % 256 / 16) then true else c.HLT
      sig := ctrlSigs cnt1 (inst % 256 / 16) cf zf
      clkprev := clk
      clkfe := clkfe
      clrrst := c.clrrst }

/-- Translation of `Ctrl.Reset`: assert the reset latch and arm its hold
counter for two ticks. -/
def Ctrl.reset (c : Ctrl) : Ctrl :=
  { c with CLR := true, clrrst := 2 }

/-- Decode table transcribed from the specification's fetch-phase and
execute-phase tables (spec section 4.7), as a pure function of micro-step,
opcode high nibble and flags.  Steps 0 and 1 are opcode-independent; steps
2 to 4 follow the opcode row; an opcode outside the table is a defined no-op
asserting nothing; the 0xF row only sets the halt latch, which is not one of
the bus-control signals. -/
def specSigs (step opcode : Nat) (cf zf : Bool) : Sigs :=
  if step = 0 then { CO := true, MI := true }
  else if step = 1 then { RO := true, II := true, CE := true }
  else if opcode = 0x0 then {}
  else if opcode = 0x1 then
    if step = 2 then { IOut := true, MI := true }
    else if step = 3 then { RO := true, AI := true }
    else {}
  else if opcode = 0x2 then
    if step = 2 then { IOut := true, MI := true }
    else if step = 3 then { RO := true, BI := true }
    else if step = 4 then { EO := true, AI := true, FI := true }
    else {}
  else if opcode = 0x3 then
    if step = 2 then { IOut := true, MI := true }
    else if step = 3 then { RO := true, BI := true }
    else if step = 4 then { EO := true, AI := true, SU := true, FI := true }
    else {}
  else if opcode = 0x4 then
    if step = 2 then { IOut := true, MI := true }
    else if step = 3 then { AO := true, RI := true }
    else {}
  else if opcode = 0x5 then
    if step = 2 then { IOut := true, AI := true } else {}
  else if opcode = 0x6 then
    if step = 2 then { IOut := true, J := true } else {}
  else if opcode = 0x7 then
    if step = 2 then (if cf then { IOut := true, J := true } else {}) else {}
  else if opcode = 0x8 then
    if step = 2 then (if zf then { IOut := true, J := true } else {}) else {}
  else if opcode = 0xe then
    if step = 2 then { AO := true, OI := true } else {}
  else if opcode = 0xf then {}
  else {}

/-- The five output-enable signals that put a board's value on the bus:
A-register-out, instruction-register-out, ALU-out, counter-out, memory-out. -/
def outEnables (s : Sigs) : List Bool :=
  [s.AO, s.IOut, s.EO, s.CO, s.RO]

/-- State of the composed breadboard CPU `BBCpu`: every board plus the
shared data bus. -/
structure BBCpu where
  CLK : Clk
  CL : Ctrl
  Areg : Reg
  Breg : Reg
  Oreg : Reg
  ALU : Alu
  MAR : Reg4
  RAM : Mem
  PC : Ctr
  IR : Ireg
  BUS : Nat
deriving DecidableEq

/-- Translation of `BBCpu.Exec` with the wiring of `NewBBCpu`: clock first,
then control logic (reading the clock's new level, the old instruction
register buffer and the ALU's committed flags), then each remaining board in
the documented order, each reading the control signals just derived and
threading the shared bus value.  `Breg` and `Oreg` are wired with a nil
enable-out pointer, hence the constant `false`. -/
def BBCpu.exec (c : BBCpu) : BBCpu :=
  let clk1 := c.CLK.exec c.CL.HLT
  let cl1 := c.CL.exec c.IR.BUF clk1.CLK c.ALU.CF c.ALU.ZF
  let ar := c.Areg.exec c.BUS clk1.CLK cl1.CLR cl1.sig.AI cl1.sig.AO
  let br := c.Breg.exec ar.2 clk1.CLK cl1.CLR cl1.sig.BI false
  let og := c.Oreg.exec br.2 clk1.CLK cl1.CLR cl1.sig.OI false
  let al := c.ALU.exec ar.1.BUF br.1.BUF og.2 clk1.CLK cl1.CLR cl1.sig.EO cl1.sig.SU cl1.sig.FI
  let ma := c.MAR.exec al.2 clk1.CLK cl1.CLR cl1.sig.MI
  let ra := c.RAM.exec ma.BUF al.2 clk1.CLK cl1.sig.RI cl1.sig.RO
  let pc := c.PC.exec ra.2 clk1.CLK cl1.CLR cl1.sig.CO cl1.sig.J cl1.sig.CE
  let ir := c.IR.exec pc.2 clk1.CLK cl1.CLR cl1.sig.II cl1.sig.IOut
  { CLK := clk1, CL := cl1, Areg := ar.1, Breg := br.1, Oreg := og.1,
    ALU := al.1, MAR := ma, RAM := ra.1, PC := pc.1, IR := ir.1, BUS := ir.2 }

/-- Translation of `BBCpu.Reset`: invoke `Ctrl.Reset` and tick twice. -/
def BBCpu.reset (c : BBCpu) : BBCpu :=
  ({ c with CL := c.CL.reset }).exec.exec

/-- The stopping condition of the loop in `BBCpu.Instruction`: micro-step
counter equal to 4 while the clock level is high. -/
def BBCpu.instrDone (c : BBCpu) : Bool :=
  decide (c.CL.Cnt = 4) && c.CLK.CLK

/-- C3: on every tick `Alu.Exec` recomputes the result as `A + B` mod 256
when subtract-select is false and `A - B` mod 256 (as integers) when it is
true, with pending carry the unsigned-overflow test for addition and the
borrow indicator `A < B` for subtraction, and pending zero exactly when the
result is zero. -/
theorem alu_recomputes_result_and_pending_flags
    (a b bus : Nat) (clk clr eo su fi : Bool) (s : Alu)
    (ha : a < 256) (hb : b < 256) :
    ((Alu.exec a b bus clk clr eo su fi s).1.BUF =
        if su then (((a : Int) - b) % 256).toNat else (a + b) % 256)
    ∧ (Alu.exec a b bus clk clr eo su fi s).1.bufCF =
        (if su then decide (a < b) else decide (255 < a + b))
    ∧ (Alu.exec a b bus clk clr eo su fi s).1.bufZF =
        decide ((Alu.exec a b bus clk clr eo su fi s).1.BUF = 0) := by
  refine ⟨?_, ?_, ?_⟩ <;>
    cases su <;>
      simp [Alu.exec, aluResult, aluPendCF, aluPendZF, byteAdd, byteSub] <;>
      omega

/-- C3 witness: evaluating the theorem at concrete operands 3 and 7 with
subtraction selected. -/
theorem alu_recomputes_result_and_pending_flags_witness :
    (Alu.exec 3 7 0 false false false true false
        ⟨0, false, false, false, false, false, false⟩).1.BUF =
      ((((3 : Nat) : Int) - (7 : Nat)) % 256).toNat :=
  (alu_recomputes_result_and_pending_flags 3 7 0 false false false true false
    ⟨0, false, false, false, false, false, false⟩ (by decide) (by decide)).1

/-- C2: the committed carry/zero pair of the ALU changes only on a tick with
a clock rising edge while flag-input is asserted (or when clear forces both
false); on such a rising-edge tick it becomes exactly the pair that was
pending at that tick, which after a previous tick with operands `a1`, `b1`
is the pair computed from those operand values, never a pair computed on the
later tick. -/
theorem alu_flags_commit_pending_at_edge
    (s : Alu) (a1 b1 bus1 a2 b2 bus2 : Nat)
    (clk1 clr1 eo1 su1 fi1 clk2 clr2 eo2 su2 fi2 : Bool) :
    (((fi1 && (clk1 && !s.clkprev)) = false → clr1 = false →
        (Alu.exec a1 b1 bus1 clk1 clr1 eo1 su1 fi1 s).1.CF = s.CF
        ∧ (Alu.exec a1 b1 bus1 clk1 clr1 eo1 su1 fi1 s).1.ZF = s.ZF)
      ∧ (clr1 = true →
        (Alu.exec a1 b1 bus1 clk1 clr1 eo1 su1 fi1 s).1.CF = false
        ∧ (Alu.exec a1 b1 bus1 clk1 clr1 eo1 su1 fi1 s).1.ZF = false)
      ∧ ((fi1 && (clk1 && !s.clkprev)) = true → clr1 = false →
        (Alu.exec a1 b1 bus1 clk1 clr1 eo1 su1 fi1 s).1.CF = s.bufCF
        ∧ (Alu.exec a1 b1 bus1 clk1 clr1 eo1 su1 fi1 s).1.ZF = s.bufZF))
    ∧ ((fi2 && (clk2 && !clk1)) = true → clr2 = false →
        (Alu.exec a2 b2 bus2 clk2 clr2 eo2 su2 fi2
            (Alu.exec a1 b1 bus1 clk1 clr1 eo1 su1 fi1 s).1).1.CF
          = aluPendCF su1 a1 b1
        ∧ (Alu.exec a2 b2 bus2 clk2 clr2 eo2 su2 fi2
            (Alu.exec a1 b1 bus1 clk1 clr1 eo1 su1 fi1 s).1).1.ZF
          = aluPendZF su1 a1 b1) := by
  refine ⟨⟨fun h1 h2 => ?_, fun h1 => ?_, fun h1 h2 => ?_⟩, fun h1 h2 => ?_⟩ <;>
    simp_all [Alu.exec]

/-- C2 witness: a rising-edge commit after a tick that computed 200 + 100
yields committed carry true and committed zero false, exactly the pair
pending from that earlier tick. -/
theorem alu_flags_commit_pending_at_edge_witness :
    (Alu.exec 1 2 0 true false false false true
        (Alu.exec 200 100 0 false false false false false
          ⟨0, false, false, false, false, false, false⟩).1).1.CF
      = aluPendCF false 200 100 :=
  ((alu_flags_commit_pending_at_edge
      ⟨0, false, false, false, false, false, false⟩ 200 100 0 1 2 0
      false false false false false true false false false true).2
    (by decide) rfl).1

/-- C6: for the register board, without a clock rising edge the enable-in
signal never changes the buffer (the buffer after `Reg.Exec` is the same
whether enable-in is asserted or not); on a rising edge with enable-in
asserted and clear not asserted the buffer becomes exactly the bus value of
that tick; and an asserted clear overrides the capture in the same tick,
forcing the buffer to 0. -/
theorem reg_edge_triggered_capture (r : Reg) (bus : Nat) (clk clr ei eo : Bool) :
    ((clk && !r.clkprev) = false →
        (Reg.exec bus clk clr true eo r).1.BUF
          = (Reg.exec bus clk clr false eo r).1.BUF)
    ∧ ((clk && !r.clkprev) = true → ei = true → clr = false →
        (Reg.exec bus clk clr ei eo r).1.BUF = bus)
    ∧ (clr = true → (Reg.exec bus clk clr ei eo r).1.BUF = 0) := by
  refine ⟨fun h1 => ?_, fun h1 h2 h3 => ?_, fun h1 => ?_⟩ <;>
    cases clk <;> cases hp : r.clkprev <;> simp_all [Reg.exec]

/-- C6 witness: on a rising edge with enable-in asserted the buffer captures
the bus value 99, and with clear asserted it is forced to 0 instead. -/
theorem reg_edge_triggered_capture_witness :
    (Reg.exec 99 true false true false ⟨7, false, false⟩).1.BUF = 99
    ∧ (Reg.exec 99 true true true false ⟨7, false, false⟩).1.BUF = 0 :=
  ⟨(reg_edge_triggered_capture ⟨7, false, false⟩ 99 true false true false).2.1
      (by decide) rfl rfl,
    (reg_edge_triggered_capture ⟨7, false, false⟩ 99 true true true false).2.2 rfl⟩

/-- C7: on a tick of `Ctr.Exec` with a clock rising edge and clear not
asserted, when both the jump-load signal and count-enable are asserted the
counter ends equal to the low 4 bits of the bus value (load takes precedence
over increment); when only count-enable is asserted the counter increments
modulo 16, so from 15 it wraps to 0. -/
theorem ctr_load_precedence_and_wraparound
    (c : Ctr) (bus : Nat) (clk clr co j ce : Bool)
    (hre : (clk && !c.clkprev) = true) (hclr : clr = false) :
    (j = true → ce = true →
        (Ctr.exec bus clk clr co j ce c).1.CNT = bus % 16)
    ∧ (j = false → ce = true →
        (Ctr.exec bus clk clr co j ce c).1.CNT = (c.CNT + 1) % 16)
    ∧ (j = false → ce = true → c.CNT = 15 →
        (Ctr.exec bus clk clr co j ce c).1.CNT = 0) := by
  refine ⟨fun h1 h2 => ?_, fun h1 h2 => ?_, fun h1 h2 h3 => ?_⟩ <;>
    simp_all [Ctr.exec]

/-- C7 witness: with both load and count-enable asserted on a rising edge the
counter becomes the low 4 bits of bus value 0xAB, and with only count-enable
asserted a counter at 15 wraps to 0. -/
theorem ctr_load_precedence_and_wraparound_witness :
    (Ctr.exec 0xab true false false true true ⟨3, false, false⟩).1.CNT = 0xab % 16
    ∧ (Ctr.exec 0xab true false false false true ⟨15, false, false⟩).1.CNT = 0 :=
  ⟨(ctr_load_precedence_and_wraparound ⟨3, false, false⟩ 0xab true false false
      true true (by decide) rfl).1 rfl rfl,
    (ctr_load_precedence_and_wraparound ⟨15, false, false⟩ 0xab true false false
      false true (by decide) rfl).2.2 rfl rfl rfl⟩

/-- C8: `Mem.Write` writes `min (length p) 16` bytes of `p` from the start of
the store; if more than 16 bytes are supplied only the first 16 are written
and truncation is reported; otherwise no truncation is reported; the cells at
indices from `length p` up to 15 keep their prior values; and the store stays
16 cells long. -/
theorem mem_write_bulk_load (p : List Nat) (m : Mem) (hm : m.MEM.length = 16) :
    (∀ i : Nat, i < min p.length 16 →
        (Mem.write p m).1.MEM[i]? = p[i]?)
    ∧ (∀ i : Nat, min p.length 16 ≤ i →
        (Mem.write p m).1.MEM[i]? = m.MEM[i]?)
    ∧ (16 < p.length → (Mem.write p m).2.1 = 16 ∧ (Mem.write p m).2.2 = true)
    ∧ (p.length ≤ 16 → (Mem.write p m).2.2 = false)
    ∧ (Mem.write p m).1.MEM.length = 16 := by
  have hn : (if 16 < p.length then 16 else p.length) = min p.length 16 := by
    split <;> omega
  refine ⟨fun i hi => ?_, fun i hi => ?_, fun h => ?_, fun h => ?_, ?_⟩
  · rw [Mem.write]
    simp only [hn]
    rw [List.getElem?_append_left (by simp [List.length_take]; omega)]
    rw [List.getElem?_take, if_pos hi]
  · rw [Mem.write]
    simp only [hn]
    rw [List.getElem?_append_right (by simp [List.length_take]; omega)]
    rw [List.getElem?_drop]
    congr 1
    simp only [List.length_take]
    omega
  · simp [Mem.write, h]
  · simp [Mem.write]
    omega
  · simp [Mem.write, hm]
    omega

/-- C8 witness: loading 20 bytes into a 16-cell store reports truncation and
writes 16 bytes, and loading 5 bytes leaves cell 5 at its prior value. -/
theorem mem_write_bulk_load_witness :
    (Mem.write (List.replicate 20 7) ⟨List.replicate 16 3, false, false⟩).2.2 = true
    ∧ (Mem.write (List.replicate 20 7) ⟨List.replicate 16 3, false, false⟩).2.1 = 16
    ∧ (Mem.write [9, 9, 9, 9, 9]
        ⟨List.replicate 16 3, false, false⟩).1.MEM[5]?
      = (List.replicate 16 3 : List Nat)[5]? :=
  ⟨((mem_write_bulk_load (List.replicate 20 7)
        ⟨List.replicate 16 3, false, false⟩ (by simp)).2.2.1 (by simp)).2,
    ((mem_write_bulk_load (List.replicate 20 7)
        ⟨List.replicate 16 3, false, false⟩ (by simp)).2.2.1 (by simp)).1,
    (mem_write_bulk_load [9, 9, 9, 9, 9]
        ⟨List.replicate 16 3, false, false⟩ (by simp)).2.1 5 (by simp)⟩

/-- Helper: within the table's domain (micro-step at most 4, opcode high
nibble below 16) the signal derivation of `Ctrl.Exec` agrees with the
specification's decode table. -/
theorem ctrlSigs_eq_specSigs (cnt nb : Nat) (cf zf : Bool)
    (h4 : cnt ≤ 4) (h16 : nb < 16) :
    ctrlSigs cnt nb cf zf = specSigs cnt nb cf zf := by
  rcases cnt with _ | _ | _ | _ | _ | cnt
  on_goal 6 => omega
  all_goals
    rcases nb with _ | _ | _ | _ | _ | _ | _ | _ | _ | _ | _ | _ | _ | _ | _ | _ | nb
  all_goals first
    | omega
    | (cases cf <;> cases zf <;> rfl)

/-- Helper: any signal vector produced by the derivation switch of
`Ctrl.Exec` asserts at most one of the five output-enable signals. -/
theorem ctrlSigs_single_driver (cnt nb : Nat) (cf zf : Bool) :
    (outEnables (ctrlSigs cnt nb cf zf)).count true ≤ 1 := by
  rcases cnt with _ | _ | _ | _ | _ | cnt <;>
    rcases nb with _ | _ | _ | _ | _ | _ | _ | _ | _ | _ | _ | _ | _ | _ | _ | _ | nb <;>
      cases cf <;> cases zf <;>
        exact of_decide_eq_true rfl

/-- C1: on a tick where the reset latch is not asserted, the signal vector
produced by `Ctrl.Exec` is exactly the specification's decode table applied
to the tick's micro-step, the opcode high nibble and the flags: fetch
signals at steps 0 and 1, the opcode row at steps 2 to 4 (jump-if-carry
asserting inst-out and jump-load at step 2 only if the carry flag is set),
nothing for an opcode outside the table, and every unlisted signal false. -/
theorem ctrl_signals_match_spec_decode (c : Ctrl) (inst : Nat) (clk cf zf : Bool)
    (hclr : c.CLR = false) (hcnt : c.Cnt ≤ 4) :
    (c.exec inst clk cf zf).sig
      = specSigs (c.exec inst clk cf zf).Cnt (inst % 256 / 16) cf zf := by
  have h16 : inst % 256 / 16 < 16 := by omega
  have hc1 : (c.exec inst clk cf zf).Cnt ≤ 4 := by
    simp only [Ctrl.exec, hclr, Bool.false_eq_true, if_false]
    repeat' split
    all_goals omega
  have hsig : (c.exec inst clk cf zf).sig
      = ctrlSigs (c.exec inst clk cf zf).Cnt (inst % 256 / 16) cf zf := by
    simp only [Ctrl.exec, hclr, Bool.false_eq_true, if_false]
  rw [hsig]
  exact ctrlSigs_eq_specSigs _ _ cf zf hc1 h16

/-- C1 witness: a control unit at micro-step 1 with the reset latch clear,
on a falling edge with a jump-if-carry instruction (0x74) and the carry flag
set, derives exactly the spec row for step 2 of jump-if-carry. -/
theorem ctrl_signals_match_spec_decode_witness :
    (Ctrl.exec 0x74 false true false
        ⟨1, false, false, {}, true, false, 0⟩).sig
      = specSigs (Ctrl.exec 0x74 false true false
          ⟨1, false, false, {}, true, false, 0⟩).Cnt (0x74 % 256 / 16) true false :=
  ctrl_signals_match_spec_decode ⟨1, false, false, {}, true, false, 0⟩
    0x74 false true false rfl (by decide)

/-- C4: after `Ctrl.Reset` the reset latch is asserted and stays asserted
through exactly two calls to `Ctrl.Exec`; during both ticks the micro-step
counter is forced to 0, the halt latch is forced false, and no control
signal is asserted; after the second tick the latch has self-cleared. -/
theorem ctrl_reset_holds_exactly_two_ticks (c : Ctrl) (i1 i2 : Nat)
    (k1 f1 z1 k2 f2 z2 : Bool) :
    c.reset.CLR = true
    ∧ (c.reset.exec i1 k1 f1 z1).CLR = true
    ∧ (c.reset.exec i1 k1 f1 z1).Cnt = 0
    ∧ (c.reset.exec i1 k1 f1 z1).HLT = false
    ∧ (c.reset.exec i1 k1 f1 z1).sig = {}
    ∧ ((c.reset.exec i1 k1 f1 z1).exec i2 k2 f2 z2).CLR = false
    ∧ ((c.reset.exec i1 k1 f1 z1).exec i2 k2 f2 z2).Cnt = 0
    ∧ ((c.reset.exec i1 k1 f1 z1).exec i2 k2 f2 z2).HLT = false
    ∧ ((c.reset.exec i1 k1 f1 z1).exec i2 k2 f2 z2).sig = {} := by
  simp [Ctrl.reset, Ctrl.exec]

/-- C5: whatever the state, after `Ctrl.Exec` at most one of the five
output-enable signals (A-register-out, instruction-register-out, ALU-out,
counter-out, memory-out) is asserted, so at most one board drives the shared
bus in any tick. -/
theorem ctrl_at_most_one_output_enable (c : Ctrl) (inst : Nat) (clk cf zf : Bool) :
    (outEnables (c.exec inst clk cf zf).sig).count true ≤ 1 := by
  by_cases h : c.CLR = true
  · simp [Ctrl.exec, h, outEnables]
  · have h2 : c.CLR = false := by simpa using h
    have hsig : (c.exec inst clk cf zf).sig
        = ctrlSigs (c.exec inst clk cf zf).Cnt (inst % 256 / 16) cf zf := by
      simp only [Ctrl.exec, h2, Bool.false_eq_true, if_false]
    rw [hsig]
    exact ctrlSigs_single_driver _ _ cf zf

/-- C9: resetting the breadboard CPU twice in a row yields exactly the same
state as resetting it once; after a reset the halt latch is false, the
micro-step counter is 0, and every register buffer (A, B, output, memory
address, instruction register) and the program counter are cleared. -/
theorem bbcpu_reset_idempotent (c : BBCpu) :
    c.reset.reset = c.reset
    ∧ c.reset.CL.HLT = false
    ∧ c.reset.CL.Cnt = 0
    ∧ c.reset.Areg.BUF = 0
    ∧ c.reset.Breg.BUF = 0
    ∧ c.reset.Oreg.BUF = 0
    ∧ c.reset.MAR.BUF = 0
    ∧ c.reset.IR.BUF = 0
    ∧ c.reset.PC.CNT = 0 := by
  cases hH : c.CL.HLT <;> cases hK : c.CLK.CLK <;>
    simp [BBCpu.reset, BBCpu.exec, Ctrl.reset, Ctrl.exec, Clk.exec,
      Reg.exec, Ireg.exec, Reg4.exec, Mem.exec, Alu.exec, Ctr.exec,
      aluResult, aluPendCF, aluPendZF, byteAdd, byteSub, hH, hK]

/-- Helper for C10: one tick of a halted, non-resetting CPU keeps the halt
latch asserted, keeps the reset latch clear, and forces the clock low. -/
theorem bbcpu_exec_halted (c : BBCpu)
    (hh : c.CL.HLT = true) (hc : c.CL.CLR = false) :
    c.exec.CL.HLT = true ∧ c.exec.CL.CLR = false ∧ c.exec.CLK.CLK = false := by
  simp [BBCpu.exec, Clk.exec, Ctrl.exec, hh, hc]

/-- C10: if the halt latch is asserted and the reset latch is not when
`BBCpu.Instruction` is invoked, its loop never terminates: after every
positive number of ticks the halt latch is still asserted, the clock level
is still forced low, and the stopping condition (micro-step 4 with the clock
high) is still false. -/
theorem instruction_never_terminates_when_halted (c : BBCpu)
    (hh : c.CL.HLT = true) (hc : c.CL.CLR = false) (n : Nat) :
    (BBCpu.exec^[n + 1] c).CL.HLT = true
    ∧ (BBCpu.exec^[n + 1] c).CL.CLR = false
    ∧ (BBCpu.exec^[n + 1] c).CLK.CLK = false
    ∧ (BBCpu.exec^[n + 1] c).instrDone = false := by
  induction n with
  | zero =>
    obtain ⟨h1, h2, h3⟩ := bbcpu_exec_halted c hh hc
    exact ⟨h1, h2, h3, by simp [BBCpu.instrDone, h3]⟩
  | succ n ih =>
    obtain ⟨h1, h2, h3, _⟩ := ih
    rw [Function.iterate_succ_apply']
    obtain ⟨g1, g2, g3⟩ := bbcpu_exec_halted _ h1 h2
    refine ⟨g1, g2, g3, ?_⟩
    simp only [BBCpu.instrDone]
    rw [g3, Bool.and_false]

/-- C10 witness: from a concrete halted state the first tick leaves the halt
latch asserted and the stopping condition false. -/
theorem instruction_never_terminates_when_halted_witness :
    (BBCpu.exec^[1]
        ⟨⟨true⟩, ⟨0, false, true, {}, false, false, 0⟩,
          ⟨0, false, false⟩, ⟨0, false, false⟩, ⟨0, false, false⟩,
          ⟨0, false, false, false, false, false, false⟩,
          ⟨0, false, false⟩, ⟨List.replicate 16 0, false, false⟩,
          ⟨0, false, false⟩, ⟨0, false, false⟩, 0⟩).CL.HLT = true
    ∧ (BBCpu.exec^[1]
        ⟨⟨true⟩, ⟨0, false, true, {}, false, false, 0⟩,
          ⟨0, false, false⟩, ⟨0, false, false⟩, ⟨0, false, false⟩,
          ⟨0, false, false, false, false, false, false⟩,
          ⟨0, false, false⟩, ⟨List.replicate 16 0, false, false⟩,
          ⟨0, false, false⟩, ⟨0, false, false⟩, 0⟩).instrDone = false := by
  refine ⟨(instruction_never_terminates_when_halted _ rfl rfl 0).1,
    (instruction_never_terminates_when_halted _ rfl rfl 0).2.2.2⟩
